import Mathlib

/-!
Shallow embedding of the `codegen` package of r1se/graphql-codegen
(`src/codegen/codegen.go`).  The schema introspection service, template
storage, the Go `text/template` engine and the source formatter are
external collaborators (spec §1, §6); they are modelled as an explicit
environment of functions passed to the generation driver.  Go `nil`
pointers of type `*introspection.Type` are modelled by the `nullType`
constructor, `nil` string pointers by `Option String`, Go maps by
association lists carrying one concrete iteration order, and a Go panic
(nil dereference) by an aborting `none`/error result.
-/

set_option autoImplicit false

namespace GraphqlCodegen

/-- Error values surfaced by the run: the Go `error` interface, modelled by
its message text. -/
def GoError := String

instance : DecidableEq GoError := inferInstanceAs (DecidableEq String)

/-- Mirrors Go `type typeConfig struct { ignore bool; goType string; importPath string }`
(src/codegen/codegen.go lines 16-20). -/
structure typeConfig where
  ignore : Bool
  goType : String
  importPath : String
deriving DecidableEq

/-- Mirrors the `internalTypeConfig` table (src/codegen/codegen.go lines 23-54);
the association list models the Go map, accessed only by key lookup. -/
def internalTypeConfig : List (String × typeConfig) :=
  [("SCALAR", ⟨true, "", ""⟩),
   ("Boolean", ⟨true, "bool", ""⟩),
   ("Float", ⟨true, "float64", ""⟩),
   ("Int", ⟨true, "int32", ""⟩),
   ("ID", ⟨true, "graphql.ID", "graphql \"github.com/neelance/graphql-go\""⟩),
   ("String", ⟨true, "string", ""⟩)]

/-- Go `internalTypeConfig[name]` with the zero value `typeConfig{}` for a
missing key, as Go map indexing yields. -/
def lookupInternalDefault (name : String) : typeConfig :=
  (List.lookup name internalTypeConfig).getD ⟨false, "", ""⟩

/-- A (possibly wrapped) schema type as seen through `introspection.Type`:
`named` covers the named kinds (SCALAR, OBJECT, INTERFACE, ...), whose
`Name()` may still be a nil pointer; `nonNull`/`list` are the wrapper
kinds NON_NULL and LIST, whose `OfType()` inner pointer is carried
directly; `nullType` stands for a nil `*introspection.Type`. -/
inductive GqlType where
  | nullType : GqlType
  | named (name : Option String) (kind : String) : GqlType
  | nonNull (ofType : GqlType) : GqlType
  | list (ofType : GqlType) : GqlType
deriving DecidableEq

/-- Go `tp.Name()`: non-nil only for named types (wrapper types have no name). -/
def GqlType.name : GqlType → Option String
  | .named n _ => n
  | _ => none

/-- Go `tp.Kind()`: "NON_NULL"/"LIST" for the wrapper constructors, the carried
kind string for named types.  Calling it on a nil pointer would panic, the
placeholder result is never relied upon. -/
def GqlType.kind : GqlType → String
  | .nullType => ""
  | .named _ k => k
  | .nonNull _ => "NON_NULL"
  | .list _ => "LIST"

/-- Base case of `getTypeName` (src/codegen/codegen.go lines 264-271): read the
terminal type's name (`none` models the `*name` nil-pointer panic), map it
through `internalTypeConfig` or fall back to `name + "Resolver"`. -/
def getTypeNameBase (tp : GqlType) (typ : String) : Option String :=
  match tp.name with
  | none => none
  | some n =>
    match List.lookup n internalTypeConfig with
    | some val => some (typ ++ val.goType)
    | none => some (typ ++ n ++ "Resolver")

/-- The `check:` loop of `getTypeName` (src/codegen/codegen.go lines 250-272)
with the `goto` compiled to structural recursion.  One pass does: if the
cursor is NON_NULL, unwrap it without emitting a marker, else append `*`;
then, if the (possibly just-unwrapped) cursor is LIST, unwrap it, append
`[]`, and jump back to the NON_NULL check; otherwise resolve the base name.
`none` models the nil-pointer panics (`tp.Kind()` on a nil inner type,
`*name` on a nameless terminal type). -/
def getTypeNameCore : GqlType → String → Option String
  | .nonNull .nullType, _ => none
  | .nonNull (.list .nullType), _ => none
  | .nonNull (.list t2), typ => getTypeNameCore t2 (typ ++ "[]")
  | .nonNull t1, typ => getTypeNameBase t1 typ
  | .list .nullType, _ => none
  | .list t2, typ => getTypeNameCore t2 (typ ++ "*" ++ "[]")
  | .nullType, _ => none
  | .named n k, typ => getTypeNameBase (.named n k) (typ ++ "*")

/-- Go `getTypeName(tp, conf)` with the named return value `typ` starting as
the empty string; `conf` is accepted and ignored exactly as in the source. -/
def getTypeName (tp : GqlType) : Option String :=
  getTypeNameCore tp ""

/-- Mirrors `getImports` (src/codegen/codegen.go lines 235-248): if the type
has a name found in `internalTypeConfig`, return the one-element list holding
its import path (possibly the empty string); otherwise recurse through the
wrapper chain; a named type absent from the table, or an exhausted chain,
yields the empty list. -/
def getImportsCore : GqlType → List String
  | .named (some nm) _ =>
    match List.lookup nm internalTypeConfig with
    | some val => [val.importPath]
    | none => []
  | .named none _ => []
  | .nonNull .nullType => []
  | .nonNull t => getImportsCore t
  | .list .nullType => []
  | .list t => getImportsCore t
  | .nullType => []

/-- Mirrors `removeDuplicates` (src/codegen/codegen.go lines 274-284): the Go
loop over `a` with the `result` slice and the `seen` map, the latter modelled
by the list of keys inserted so far. -/
def removeDuplicatesGo : List String → List String → List String → List String
  | [], result, _seen => result
  | v :: rest, result, seen =>
    if v ∈ seen then removeDuplicatesGo rest result seen
    else removeDuplicatesGo rest (result ++ [v]) (seen ++ [v])

/-- Go `removeDuplicates(a)`: start with empty `result` and `seen`. -/
def removeDuplicates (a : List String) : List String :=
  removeDuplicatesGo a [] []

/-- The wrapper-chain invariant exactly as claim C7 states it (spec §3): every
wrapper has a non-absent inner type and the terminal type has a non-absent
name.  (It does not rule out a NON_NULL directly wrapping a NON_NULL.) -/
def chainWellFormed : GqlType → Bool
  | .nullType => false
  | .named n _ => n.isSome
  | .nonNull .nullType => false
  | .nonNull t => chainWellFormed t
  | .list .nullType => false
  | .list t => chainWellFormed t

/-- The wrapper-chain invariant strengthened by GraphQL validity: additionally
no NON_NULL wrapper directly wraps another NON_NULL (schemas produced by the
parser collaborator never contain `T!!`). -/
def validWrapperChain : GqlType → Bool
  | .nullType => false
  | .named n _ => n.isSome
  | .nonNull .nullType => false
  | .nonNull (.nonNull _) => false
  | .nonNull t => validWrapperChain t
  | .list .nullType => false
  | .list t => validWrapperChain t

/-- The built-in String scalar as introspection reports it. -/
def strScalar : GqlType := .named (some "String") "SCALAR"

/-- A template parameter bag (`map[string]interface{}` in Go); only its
contents as key/value pairs matter to this core, values being opaque to it. -/
def ParamBag := List (String × String)

instance : DecidableEq ParamBag := inferInstanceAs (DecidableEq (List (String × String)))

/-- Modelled from the spec: per-field configuration (`config.FieldConfig`,
whose source is not under src/) — "mapping from template-variant name →
arbitrary parameter bag" (spec §3).  The association list carries the map
contents in one concrete iteration order. -/
structure FieldConfig where
  Template : List (String × ParamBag)
deriving DecidableEq

/-- Modelled from the spec: per-entity configuration (`config.TypeConfig`,
whose source is not under src/) — "mapping from template-variant name →
arbitrary parameter bag; mapping from field name → FieldConfig" (spec §3). -/
structure TypeConfig where
  Template : List (String × ParamBag)
  Field : List (String × FieldConfig)
deriving DecidableEq

/-- Modelled from the spec: the global configuration (`config.Config`, whose
source is not under src/) — exposes "per-entity TypeConfig lookup by name"
(spec §6), used in the core only as `conf.Type[name]`. -/
structure Config where
  Type' : List (String × TypeConfig)
deriving DecidableEq

/-- Go `conf.Type[name]`: map lookup yielding the zero value (empty maps) for
a missing key. -/
def lookupTypeConfig (conf : Config) (n : String) : TypeConfig :=
  (List.lookup n conf.Type').getD ⟨[], []⟩

/-- Go `typeConf.Field[name]`: map lookup yielding the zero value for a
missing key. -/
def lookupFieldConfig (tc : TypeConfig) (n : String) : FieldConfig :=
  (List.lookup n tc.Field).getD ⟨[]⟩

/-- The normalization performed at src/codegen/codegen.go lines 116-119 and
180-183: a template map with zero entries is replaced by a single "default"
variant with an empty parameter bag. -/
def normalizeTemplates (t : List (String × ParamBag)) : List (String × ParamBag) :=
  if t.length = 0 then [("default", [])] else t

/-- Result of the template collaborator's `GetTypeTemplate`: the entity-level
template body (field `TypeTemplate` of the returned struct). -/
structure TypeTemplateResult where
  TypeTemplate : String
deriving DecidableEq

/-- Result of the template collaborator's `GetPropertyTemplate`: the field
declaration and accessor-method template bodies. -/
structure PropertyTemplateResult where
  FieldTemplate : String
  MethodTemplate : String
deriving DecidableEq

/-- A schema field as introspection reports it (`introspection.Field`):
name, optional description (a `*string` in Go), and its wrapped type. -/
structure GqlField where
  name : String
  description : Option String
  type : GqlType
deriving DecidableEq

/-- A catalogue entry of the parsed schema (`introspection.Type` as returned
by `ins.Types()`): a named top-level type.  `fields` models
`*tp.Fields(&struct{IncludeDeprecated bool}{true})` and `possibleTypes` the
optional `*tp.PossibleTypes()` list, already projected to the names the code
reads from it. -/
structure GqlNamedType where
  name : String
  kind : String
  description : Option String
  fields : List GqlField
  possibleTypes : Option (List String)
deriving DecidableEq

/-- The rendering context handed to `tmpl.Execute`, one constructor per call
site: the entity-level context (src/codegen/codegen.go lines 156-165), the
field-declaration context (lines 198-205) and the accessor-method context
(lines 212-220). -/
inductive TemplateContext where
  | typeCtx (kind : String) (possibleTypes : List String) (typeName : String)
      (typeDescription : String) (conf : Config) (fields : List String)
      (methods : List String) (imports : List String) : TemplateContext
  | fieldCtx (typeKind : String) (fieldName : String) (fieldDescription : Option String)
      (fieldType : String) (conf : Config) (templateConfig : ParamBag) : TemplateContext
  | methodCtx (typeKind : String) (typeName : String) (methodName : String)
      (methodReturnType : String) (methodReturn : String) (conf : Config)
      (templateConfig : ParamBag) : TemplateContext

/-- The external collaborators of spec §6, as one environment of functions:
the schema parser (`graphql.ParseSchema` + `Inspect`, projected to the type
catalogue), the template store (`GetTypeTemplate` / `GetPropertyTemplate`),
the `text/template` engine (`Parse` builds a `Tmpl`, `Execute` returns the
text written to the buffer together with its possibly non-nil error), and
the source formatter (`FormatCode`, a collaborator of this package whose
source is not under src/; modelled from the spec: format(sourceText) →
formattedText | error). -/
structure Env where
  Tmpl : Type
  parseSchema : String → Except GoError (List GqlNamedType)
  getTypeTemplate : String → Except GoError TypeTemplateResult
  getPropertyTemplate : String → Except GoError PropertyTemplateResult
  parseTemplate : String → String → Except GoError Tmpl
  executeTemplate : Tmpl → TemplateContext → String × Option GoError
  formatCode : String → Except GoError String

/-- Go `strings.HasPrefix(name, "_")`: the name's first byte is an
underscore. -/
def startsWithUnderscore (s : String) : Bool :=
  match s.data with
  | [] => false
  | c :: _ => c = '_'

/-- Go `strings.ToLower` on one character, for the ASCII range schema type
names use. -/
def charToLowerGo (c : Char) : Char :=
  if 'A' ≤ c ∧ c ≤ 'Z' then Char.ofNat (c.toNat + 32) else c

/-- Go `strings.ToLower(name)` character by character. -/
def stringToLowerGo (s : String) : String :=
  String.mk (s.data.map charToLowerGo)

/-- Go `strings.Trim(s, " \t")`: strip leading and trailing spaces and tabs. -/
def trimSpaceTab (s : String) : String :=
  String.mk (((s.toList.dropWhile (fun c => c = ' ' ∨ c = '\t')).reverse.dropWhile
    (fun c => c = ' ' ∨ c = '\t')).reverse)

/-- Mirrors `returnString` (src/codegen/codegen.go lines 103-108). -/
def returnString : Option String → String
  | some s => s
  | none => ""

/-- Go `*tp.PossibleTypes()` names when the pointer is non-nil, else the empty
slice (src/codegen/codegen.go lines 148-154). -/
def possibleTypeNames (tp : GqlNamedType) : List String :=
  tp.possibleTypes.getD []

/-- The per-variant loop of `generateField` (src/codegen/codegen.go lines
185-223): resolve the property template, parse the trimmed field template,
resolve the field's type expression (its nil-dereference panic modelled as an
aborting error), execute it into the field buffer with the execution error
discarded as in the source, parse the (untrimmed) method template, execute it
into the method buffer likewise, collect the field's imports, and continue
with the remaining variants. -/
def fieldVariantsLoop (env : Env) (fp : GqlField) (tp : GqlNamedType) (conf : Config) :
    List (String × ParamBag) → String → String → List String →
    Except GoError (String × String × List String)
  | [], fieldCode, methodCode, imports => .ok (fieldCode, methodCode, imports)
  | (templateName, templateConfig) :: rest, fieldCode, methodCode, imports =>
    match env.getPropertyTemplate templateName with
    | .error e => .error e
    | .ok propTemplate =>
      match env.parseTemplate templateName (trimSpaceTab propTemplate.FieldTemplate) with
      | .error e => .error e
      | .ok tmpl =>
        match getTypeName fp.type with
        | none => .error "panic: runtime error: invalid memory address or nil pointer dereference"
        | some fieldTypeName =>
          let out1 := (env.executeTemplate tmpl
            (.fieldCtx tp.kind fp.name fp.description fieldTypeName conf templateConfig)).1
          match env.parseTemplate templateName propTemplate.MethodTemplate with
          | .error e => .error e
          | .ok tmpl2 =>
            let out2 := (env.executeTemplate tmpl2
              (.methodCtx tp.kind tp.name fp.name fieldTypeName fp.name conf templateConfig)).1
            fieldVariantsLoop env fp tp conf rest (fieldCode ++ out1) (methodCode ++ out2)
              (imports ++ getImportsCore fp.type)

/-- Mirrors `generateField` (src/codegen/codegen.go lines 172-226): look up the
field's configuration, normalize an empty template map to the single
"default" variant, and run the per-variant loop over the shared field and
method buffers and the import slice. -/
def generateField (env : Env) (fp : GqlField) (tp : GqlNamedType) (typeConf : TypeConfig)
    (conf : Config) : Except GoError (String × String × List String) :=
  fieldVariantsLoop env fp tp conf
    (normalizeTemplates (lookupFieldConfig typeConf fp.name).Template) "" "" []

/-- The per-field loop inside `generateType` (src/codegen/codegen.go lines
133-146): render every field in order, aborting on the first error, and
collect the field fragments, method fragments, and concatenated imports. -/
def fieldsLoop (env : Env) (tp : GqlNamedType) (typeConf : TypeConfig) (conf : Config) :
    List GqlField → Except GoError (List String × List String × List String)
  | [] => .ok ([], [], [])
  | fp :: rest =>
    match generateField env fp tp typeConf conf with
    | .error e => .error e
    | .ok (fieldCode, methodCode, fieldImports) =>
      match fieldsLoop env tp typeConf conf rest with
      | .error e => .error e
      | .ok (fields, methods, imports) =>
        .ok (fieldCode :: fields, methodCode :: methods, fieldImports ++ imports)

/-- The per-variant loop of `generateType` (src/codegen/codegen.go lines
121-166): resolve the entity-level template, parse its trimmed body, render
all fields, compute the possible-type names, execute the template into the
shared buffer with the execution error discarded as in the source, and
continue with the remaining variants. -/
def typeVariantsLoop (env : Env) (tp : GqlNamedType) (typeConf : TypeConfig) (conf : Config) :
    List (String × ParamBag) → String → Except GoError String
  | [], buf => .ok buf
  | (templateName, _bag) :: rest, buf =>
    match env.getTypeTemplate templateName with
    | .error e => .error e
    | .ok typeTemplate =>
      match env.parseTemplate templateName (trimSpaceTab typeTemplate.TypeTemplate) with
      | .error e => .error e
      | .ok tmpl =>
        match fieldsLoop env tp typeConf conf tp.fields with
        | .error e => .error e
        | .ok (fields, methods, imports) =>
          let out := (env.executeTemplate tmpl
            (.typeCtx tp.kind (possibleTypeNames tp) tp.name (returnString tp.description)
              conf fields methods (removeDuplicates imports))).1
          typeVariantsLoop env tp typeConf conf rest (buf ++ out)

/-- Mirrors `generateType` (src/codegen/codegen.go lines 110-170): look up the
entity's configuration, normalize an empty template map to the single
"default" variant (the mutated local copy is what the field renderer also
receives), run the variant loop, and hand the accumulated buffer to the
formatter collaborator. -/
def generateType (env : Env) (tp : GqlNamedType) (conf : Config) : Except GoError String :=
  let typeConf := lookupTypeConfig conf tp.name
  let typeConf1 : TypeConfig :=
    { typeConf with Template := normalizeTemplates typeConf.Template }
  match typeVariantsLoop env tp typeConf1 conf typeConf1.Template "" with
  | .error e => .error e
  | .ok buf => env.formatCode buf

/-- Insertion into the Go map `results` (`results[fileName] = code`): replace
the value of an existing key, else append the new entry. -/
def mapInsert : List (String × String) → String → String → List (String × String)
  | [], k, v => [(k, v)]
  | (k1, v1) :: rest, k, v =>
    if k1 = k then (k, v) :: rest else (k1, v1) :: mapInsert rest k v

/-- The entity loop of `Generate` (src/codegen/codegen.go lines 72-98): skip
names with the "_" prefix and names whose `internalTypeConfig` entry is
flagged `ignore`; derive the artifact filename; for the kinds ENUM,
INPUT_OBJECT and UNION only log, leaving `code` as the empty string; for all
other kinds render the entity, aborting the whole run on error; in every
non-skipped case store `code` under the filename and continue. -/
def processTypes (env : Env) (conf : Config) :
    List GqlNamedType → List (String × String) → Except GoError (List (String × String))
  | [], results => .ok results
  | qlType :: rest, results =>
    if startsWithUnderscore qlType.name then processTypes env conf rest results
    else if (lookupInternalDefault qlType.name).ignore then processTypes env conf rest results
    else
      let fileName := stringToLowerGo qlType.name ++ "_gen.go"
      if qlType.kind = "ENUM" ∨ qlType.kind = "INPUT_OBJECT" ∨ qlType.kind = "UNION" then
        processTypes env conf rest (mapInsert results fileName "")
      else
        match generateType env qlType conf with
        | .error e => .error e
        | .ok code => processTypes env conf rest (mapInsert results fileName code)

/-- Mirrors `Generate` (src/codegen/codegen.go lines 62-101): parse the schema
through the collaborator (a parse failure aborts the run), then run the
entity loop starting from the empty result map. -/
def Generate (env : Env) (graphSchema : String) (conf : Config) :
    Except GoError (List (String × String)) :=
  match env.parseSchema graphSchema with
  | .error e => .error e
  | .ok types => processTypes env conf types []

/-- Deduplication as the spec words it, for comparison with the code's
`removeDuplicates` (a refinement target, not translated from the source):
keep each string's first occurrence and drop every later repeat. -/
def firstOccurrenceDedup : List String → List String
  | [] => []
  | x :: xs => x :: firstOccurrenceDedup (xs.filter (fun y => decide (y ≠ x)))
termination_by l => l.length
decreasing_by simp_wf; exact Nat.lt_succ_of_le (List.length_filter_le _ _)

/-- A NON_NULL directly wrapping a NON_NULL: every wrapper has an inner type
and the chain ends in the named String scalar, yet the base case reads the
name of the remaining NON_NULL wrapper. -/
def doubleNonNull : GqlType := .nonNull (.nonNull strScalar)

/-- The empty global configuration. -/
def confEmpty : Config := ⟨[]⟩

/-- An ENUM entity named Status, as in the spec's end-to-end scenario. -/
def statusEnum : GqlNamedType := ⟨"Status", "ENUM", none, [], none⟩

/-- A plain object entity with no fields, used by several scenarios. -/
def tObj : GqlNamedType := ⟨"T", "OBJECT", none, [], none⟩

/-- Collaborator environment whose schema catalogue holds only the Status
enum; its template store rejects every variant name, which the ENUM path
never consults. -/
def envEnum : Env :=
  { Tmpl := String
    parseSchema := fun _ => .ok [statusEnum]
    getTypeTemplate := fun v => .error ("unknown type template " ++ v)
    getPropertyTemplate := fun v => .error ("unknown property template " ++ v)
    parseTemplate := fun n b => .ok (n ++ ":" ++ b)
    executeTemplate := fun t _ => (t, none)
    formatCode := fun s => .ok s }

/-- Collaborator environment whose template engine always fails at execution
time, after writing partial output to the buffer (the behaviour of
`text/template`'s `Execute` on an invalid context reference). -/
def envExecFail : Env :=
  { Tmpl := Unit
    parseSchema := fun _ => .ok [tObj]
    getTypeTemplate := fun _ => .ok ⟨"body"⟩
    getPropertyTemplate := fun _ => .ok ⟨"fb", "mb"⟩
    parseTemplate := fun _ _ => .ok ()
    executeTemplate := fun _ _ => ("PARTIAL", some "template: exec failed")
    formatCode := fun s => .ok s }

/-- Collaborator environment whose rendered fragment encodes the variant
name, so variant iteration order is observable in the artifact text. -/
def envTwoVariants : Env :=
  { Tmpl := String
    parseSchema := fun _ => .ok [tObj]
    getTypeTemplate := fun v => .ok ⟨"B" ++ v⟩
    getPropertyTemplate := fun v => .ok ⟨"f" ++ v, "m" ++ v⟩
    parseTemplate := fun n b => .ok (n ++ ":" ++ b)
    executeTemplate := fun t _ => (t ++ ";", none)
    formatCode := fun s => .ok s }

/-- Configuration requesting the two entity-level variants a and b for T, in
that iteration order. -/
def confAB : Config := ⟨[("T", ⟨[("a", []), ("b", [])], []⟩)]⟩

/-- The same configuration map as `confAB` with the opposite iteration
order. -/
def confBA : Config := ⟨[("T", ⟨[("b", []), ("a", [])], []⟩)]⟩

/-- A valid object entity named A, rendered before the failing one in the
fail-fast scenario. -/
def aObj : GqlNamedType := ⟨"A", "OBJECT", none, [], none⟩

/-- An object entity named B whose configuration will request an unknown
template variant. -/
def bObj : GqlNamedType := ⟨"B", "OBJECT", none, [], none⟩

/-- Collaborator environment for the fail-fast scenario: the catalogue holds
the valid A and then B; the template store knows only the "default"
variant. -/
def envFailFast : Env :=
  { Tmpl := String
    parseSchema := fun _ => .ok [aObj, bObj]
    getTypeTemplate := fun v =>
      if v = "default" then .ok ⟨"tbody"⟩ else .error ("unknown type template: " ++ v)
    getPropertyTemplate := fun v =>
      if v = "default" then .ok ⟨"fb", "mb"⟩ else .error ("unknown property template: " ++ v)
    parseTemplate := fun n b => .ok (n ++ ":" ++ b)
    executeTemplate := fun t _ => (t ++ ";", none)
    formatCode := fun s => .ok s }

/-- Configuration requesting the unknown variant "missing" for entity B (and
nothing for A). -/
def confMissingB : Config := ⟨[("B", ⟨[("missing", [])], []⟩)]⟩

/-- An object entity named Alpha. -/
def alphaObj : GqlNamedType := ⟨"Alpha", "OBJECT", none, [], none⟩

/-- An object entity named Beta. -/
def betaObj : GqlNamedType := ⟨"Beta", "OBJECT", none, [], none⟩

/-- Collaborator environment serving two schemas: the text "A" parses to the
catalogue holding Alpha, the text "B" to the one holding Beta; the template
store rejects the variant "missing" with an error that, as in the Go
template package, can mention only the variant name it was given. -/
def envTwoSchemas : Env :=
  { Tmpl := String
    parseSchema := fun s => if s = "A" then .ok [alphaObj] else .ok [betaObj]
    getTypeTemplate := fun v =>
      if v = "default" then .ok ⟨"tbody"⟩ else .error ("unknown template variant: " ++ v)
    getPropertyTemplate := fun v =>
      if v = "default" then .ok ⟨"fb", "mb"⟩ else .error ("unknown property variant: " ++ v)
    parseTemplate := fun n b => .ok (n ++ ":" ++ b)
    executeTemplate := fun t _ => (t ++ ";", none)
    formatCode := fun s => .ok s }

/-- Configuration requesting the unknown variant "missing" for both Alpha
and Beta. -/
def confMissingBoth : Config :=
  ⟨[("Alpha", ⟨[("missing", [])], []⟩), ("Beta", ⟨[("missing", [])], []⟩)]⟩

/-- Two entity-level template configurations denote the same Go map when
their variant lists are permutations of one another and every field-level
lookup yields permuted variant lists as well (Go map equality is
order-blind; the core reads the configuration only through these lookups
and through iteration over the variant lists). -/
def typeConfigSameMap (t1 t2 : TypeConfig) : Prop :=
  t1.Template.Perm t2.Template ∧
  ∀ f, (lookupFieldConfig t1 f).Template.Perm (lookupFieldConfig t2 f).Template

/-- Two global configurations denote the same Go value when every per-entity
lookup yields template maps with the same contents. -/
def configSameMap (c1 c2 : Config) : Prop :=
  ∀ n, typeConfigSameMap (lookupTypeConfig c1 n) (lookupTypeConfig c2 n)

/-- Every template map reachable from the configuration holds at most one
variant (the default-normalized case). -/
def singleVariantConfig (c : Config) : Prop :=
  ∀ n, (lookupTypeConfig c n).Template.length ≤ 1 ∧
    ∀ f, (lookupFieldConfig (lookupTypeConfig c n) f).Template.length ≤ 1

/-- Two rendering contexts that agree everywhere except that their embedded
configurations merely denote the same Go map. -/
def contextEquiv : TemplateContext → TemplateContext → Prop
  | .typeCtx k1 p1 n1 d1 c1 f1 m1 i1, .typeCtx k2 p2 n2 d2 c2 f2 m2 i2 =>
    k1 = k2 ∧ p1 = p2 ∧ n1 = n2 ∧ d1 = d2 ∧ configSameMap c1 c2 ∧
      f1 = f2 ∧ m1 = m2 ∧ i1 = i2
  | .fieldCtx k1 n1 d1 t1 c1 b1, .fieldCtx k2 n2 d2 t2 c2 b2 =>
    k1 = k2 ∧ n1 = n2 ∧ d1 = d2 ∧ t1 = t2 ∧ configSameMap c1 c2 ∧ b1 = b2
  | .methodCtx k1 tn1 mn1 rt1 r1 c1 b1, .methodCtx k2 tn2 mn2 rt2 r2 c2 b2 =>
    k1 = k2 ∧ tn1 = tn2 ∧ mn1 = mn2 ∧ rt1 = rt2 ∧ r1 = r2 ∧
      configSameMap c1 c2 ∧ b1 = b2
  | _, _ => False

/-- The template engine's output does not depend on the iteration order of
the configuration map embedded in the context (what a Go template can
observe of a map, short of ranging over it, is order-blind). -/
def execRespectsConfigEquiv (env : Env) : Prop :=
  ∀ (t : env.Tmpl) (c1 c2 : TemplateContext), contextEquiv c1 c2 →
    env.executeTemplate t c1 = env.executeTemplate t c2

/-- Collaborator environment whose template engine ignores the context
entirely, hence trivially order-blind in the configuration. -/
def envConstExec : Env :=
  { Tmpl := Unit
    parseSchema := fun _ => .ok [tObj]
    getTypeTemplate := fun _ => .ok ⟨"tbody"⟩
    getPropertyTemplate := fun _ => .ok ⟨"fb", "mb"⟩
    parseTemplate := fun _ _ => .ok ()
    executeTemplate := fun _ _ => ("X;", none)
    formatCode := fun s => .ok s }

/-- A configuration holding one explicit entry that coincides with the zero
value, hence denoting the same Go map as the empty configuration. -/
def confZeroEntry : Config := ⟨[("Z", ⟨[], []⟩)]⟩

instance {ε α : Type} [DecidableEq ε] [DecidableEq α] : DecidableEq (Except ε α) :=
  fun x y =>
    match x, y with
    | .error a, .error b =>
      if h : a = b then Decidable.isTrue (by rw [h]) else Decidable.isFalse (fun hh => h (Except.error.inj hh))
    | .ok a, .ok b =>
      if h : a = b then Decidable.isTrue (by rw [h]) else Decidable.isFalse (fun hh => h (Except.ok.inj hh))
    | .error _, .ok _ => Decidable.isFalse (fun hh => Except.noConfusion hh)
    | .ok _, .error _ => Decidable.isFalse (fun hh => Except.noConfusion hh)

theorem removeDuplicatesGo_spec : ∀ (a result seen : List String),
    removeDuplicatesGo a result seen =
      result ++ firstOccurrenceDedup (a.filter (fun x => decide (x ∉ seen)))
  | [], result, seen => by simp [removeDuplicatesGo, firstOccurrenceDedup]
  | v :: rest, result, seen => by
    by_cases h : v ∈ seen
    · rw [removeDuplicatesGo, if_pos h, removeDuplicatesGo_spec rest result seen]
      have hfil : (v :: rest).filter (fun x => decide (x ∉ seen)) =
          rest.filter (fun x => decide (x ∉ seen)) := by
        simp [List.filter_cons, h]
      rw [hfil]
    · rw [removeDuplicatesGo, if_neg h,
        removeDuplicatesGo_spec rest (result ++ [v]) (seen ++ [v]), List.append_assoc]
      have hfil : (v :: rest).filter (fun x => decide (x ∉ seen)) =
          v :: rest.filter (fun x => decide (x ∉ seen)) := by
        simp [List.filter_cons, h]
      rw [hfil, firstOccurrenceDedup]
      have hff : (rest.filter (fun x => decide (x ∉ seen))).filter (fun y => decide (y ≠ v)) =
          rest.filter (fun x => decide (x ∉ seen ++ [v])) := by
        rw [List.filter_filter]
        apply List.filter_congr
        intro x _
        by_cases hxv : x = v
        · simp [hxv]
        · by_cases hxs : x ∈ seen <;> simp [hxv, hxs]
      rw [hff]
      simp

theorem removeDuplicates_eq_firstOcc (a : List String) :
    removeDuplicates a = firstOccurrenceDedup a := by
  have h := removeDuplicatesGo_spec a [] []
  have hfil : a.filter (fun x => decide (x ∉ ([] : List String))) = a := by
    simp
  rw [removeDuplicates, h, hfil]
  simp

theorem firstOcc_count : ∀ (a : List String) (x : String),
    (firstOccurrenceDedup a).count x = if x ∈ a then 1 else 0
  | [], x => by simp [firstOccurrenceDedup]
  | y :: ys, x => by
    have ih := firstOcc_count (ys.filter (fun z => decide (z ≠ y))) x
    rw [firstOccurrenceDedup, List.count_cons, ih]
    by_cases hxy : x = y
    · subst hxy
      simp [List.mem_filter]
    · have hyx : ¬y = x := fun h => hxy h.symm
      simp [List.mem_filter, hxy, hyx]
termination_by a _ => a.length
decreasing_by simp_wf; exact Nat.lt_succ_of_le (List.length_filter_le _ _)

/-- Claim C9: `removeDuplicates` returns each distinct string of its input
exactly once, keeping the order of first occurrences (it coincides with the
first-occurrence deduplication the spec describes), so a dependency
reference contributed by several fields survives exactly once in the
deduplicated aggregate. -/
theorem removeDuplicates_first_occurrence_once :
    (∀ a : List String, removeDuplicates a = firstOccurrenceDedup a) ∧
    (∀ (a : List String) (x : String),
      (removeDuplicates a).count x = if x ∈ a then 1 else 0) ∧
    (∀ (importLists : List (List String)) (r : String),
      (∃ l, l ∈ importLists ∧ r ∈ l) →
        (removeDuplicates importLists.flatten).count r = 1) := by
  refine ⟨removeDuplicates_eq_firstOcc, ?_, ?_⟩
  · intro a x
    rw [removeDuplicates_eq_firstOcc]
    exact firstOcc_count a x
  · intro importLists r hr
    rw [removeDuplicates_eq_firstOcc, firstOcc_count]
    have : r ∈ importLists.flatten := by
      rcases hr with ⟨l, hl, hrl⟩
      exact List.mem_flatten.mpr ⟨l, hl, hrl⟩
    simp [this]

/-- Claim C9 witness: a reference contributed by two fields appears exactly
once after deduplication. -/
theorem removeDuplicates_first_occurrence_once_witness :
    (∃ l, l ∈ [["pkg"], ["pkg"]] ∧ "pkg" ∈ l) ∧
    (removeDuplicates (List.flatten [["pkg"], ["pkg"]])).count "pkg" = 1 :=
  ⟨⟨["pkg"], by simp, by simp⟩,
    removeDuplicates_first_occurrence_once.2.2 [["pkg"], ["pkg"]] "pkg"
      ⟨["pkg"], by simp, by simp⟩⟩

/-- Claim C2: the type-expression builder is order-sensitive; for the String
scalar the three wrapper chains resolve to exactly the three pairwise
distinct expressions the spec lists. -/
theorem getTypeName_wrapper_order_distinct :
    getTypeName (.nonNull (.list (.nonNull strScalar))) = some "[]string" ∧
    getTypeName (.list (.nonNull strScalar)) = some "*[]string" ∧
    getTypeName (.nonNull (.list strScalar)) = some "[]*string" ∧
    ("[]string" : String) ≠ "*[]string" ∧
    ("[]string" : String) ≠ "[]*string" ∧
    ("*[]string" : String) ≠ "[]*string" :=
  ⟨rfl, rfl, rfl, by decide, by decide, by decide⟩

/-- Claim C7 counterexample: `doubleNonNull` satisfies the claim's stated
precondition (`chainWellFormed`) but `getTypeName` still reaches the
nil-name dereference, modelled by `none`. -/
theorem getTypeName_double_nonNull_fails :
    chainWellFormed doubleNonNull = true ∧ getTypeName doubleNonNull = none :=
  ⟨rfl, rfl⟩

theorem getTypeNameBase_isSome (n k typ : String) :
    (getTypeNameBase (.named (some n) k) typ).isSome = true := by
  simp only [getTypeNameBase, GqlType.name]
  cases hl : List.lookup n internalTypeConfig <;> simp [hl]

theorem getTypeNameCore_total : ∀ (tp : GqlType) (typ : String),
    validWrapperChain tp = true → (getTypeNameCore tp typ).isSome = true
  | .nullType, _, h => nomatch h
  | .named none _, _, h => nomatch h
  | .named (some n) k, typ, _ => getTypeNameBase_isSome n k (typ ++ "*")
  | .nonNull .nullType, _, h => nomatch h
  | .nonNull (.named none _), _, h => nomatch h
  | .nonNull (.named (some n) k), typ, _ => getTypeNameBase_isSome n k typ
  | .nonNull (.nonNull _), _, h => nomatch h
  | .nonNull (.list .nullType), _, h => nomatch h
  | .nonNull (.list (.named n k)), typ, h =>
    getTypeNameCore_total (.named n k) (typ ++ "[]") h
  | .nonNull (.list (.nonNull t)), typ, h =>
    getTypeNameCore_total (.nonNull t) (typ ++ "[]") h
  | .nonNull (.list (.list t)), typ, h =>
    getTypeNameCore_total (.list t) (typ ++ "[]") h
  | .list .nullType, _, h => nomatch h
  | .list (.named n k), typ, h =>
    getTypeNameCore_total (.named n k) (typ ++ "*" ++ "[]") h
  | .list (.nonNull t), typ, h =>
    getTypeNameCore_total (.nonNull t) (typ ++ "*" ++ "[]") h
  | .list (.list t), typ, h =>
    getTypeNameCore_total (.list t) (typ ++ "*" ++ "[]") h

/-- Claim C7 amended: under the additional GraphQL-validity condition that no
NON_NULL wrapper directly wraps another NON_NULL, the builder always
completes: the nil-name dereference at the base case is unreachable. -/
theorem getTypeName_total_on_valid_chains (tp : GqlType)
    (h : validWrapperChain tp = true) : (getTypeName tp).isSome = true :=
  getTypeNameCore_total tp "" h

/-- Claim C7 witness: the amended totality theorem applied to the non-null
list-of-String chain. -/
theorem getTypeName_total_on_valid_chains_witness :
    validWrapperChain (.nonNull (.list strScalar)) = true ∧
    (getTypeName (.nonNull (.list strScalar))).isSome = true :=
  ⟨rfl, getTypeName_total_on_valid_chains (.nonNull (.list strScalar)) rfl⟩

/-- Claim C10: for every built-in scalar with no declared import path, the
aggregator `getImports` returns the one-element list holding the empty string, so
the deduplicated import list of any entity with such a field contains the
empty string. -/
theorem getImports_builtin_scalar_empty_string :
    ∀ (name kind : String),
      name ∈ ["SCALAR", "Boolean", "Float", "Int", "String"] →
      getImportsCore (.named (some name) kind) = [""] ∧
      ∀ pre : List String,
        "" ∈ removeDuplicates (pre ++ getImportsCore (.named (some name) kind)) := by
  intro name kind hmem
  have hbase : getImportsCore (.named (some name) kind) = [""] := by
    simp only [List.mem_cons, List.not_mem_nil, or_false] at hmem
    rcases hmem with rfl | rfl | rfl | rfl | rfl
    · rfl
    · rfl
    · rfl
    · rfl
    · rfl
  refine ⟨hbase, ?_⟩
  intro pre
  rw [hbase]
  have hmem2 : "" ∈ pre ++ [""] := List.mem_append_right pre (by simp)
  have hcount := (removeDuplicates_eq_firstOcc (pre ++ [""])) ▸ firstOcc_count (pre ++ [""]) ""
  have : (removeDuplicates (pre ++ [""])).count "" = 1 := by
    rw [removeDuplicates_eq_firstOcc, firstOcc_count]
    simp [hmem2]
  have hpos : 0 < (removeDuplicates (pre ++ [""])).count "" := by omega
  exact List.count_pos_iff.mp hpos

/-- Claim C10 witness: the String scalar, preceded by another field's import. -/
theorem getImports_builtin_scalar_empty_string_witness :
    ("String" ∈ ["SCALAR", "Boolean", "Float", "Int", "String"]) ∧
    getImportsCore (.named (some "String") "SCALAR") = [""] ∧
    "" ∈ removeDuplicates (["graphql"] ++ getImportsCore (.named (some "String") "SCALAR")) :=
  ⟨by simp,
    (getImports_builtin_scalar_empty_string "String" "SCALAR" (by simp)).1,
    (getImports_builtin_scalar_empty_string "String" "SCALAR" (by simp)).2 ["graphql"]⟩

/-- Claim C1: a run over a catalogue holding the ENUM entity Status raises no
error, but the returned mapping does contain an entry keyed by the entity's
derived filename — `results[fileName] = code` runs after the switch with
`code` left as the empty string, so the ENUM is not omitted from the
mapping as the spec says. -/
theorem generate_enum_inserts_empty_artifact :
    Generate envEnum "schema" confEmpty = .ok [("status_gen.go", "")] := rfl

/-- Claim C3: when the template engine fails at execution time the error
returned by `Execute` is discarded (its result is never read at
src/codegen/codegen.go lines 156, 198 and 212), so the run does not abort:
it returns an artifact mapping holding the partial output the engine wrote
before failing. -/
theorem generate_ignores_template_execute_error :
    envExecFail.executeTemplate () (.typeCtx "OBJECT" [] "T" "" confEmpty [] [] []) =
      ("PARTIAL", some "template: exec failed") ∧
    Generate envExecFail "schema" confEmpty = .ok [("t_gen.go", "PARTIAL")] :=
  ⟨rfl, rfl⟩

/-- Claim C8: a template configuration with zero variants is normalized to
the single variant "default" with an empty parameter bag before the variant
loop, for both the entity-level and the field-level renderer, so exactly
that one variant is rendered. -/
theorem default_variant_normalization :
    normalizeTemplates [] = [("default", [])] ∧
    (∀ (env : Env) (tp : GqlNamedType) (conf : Config),
      (lookupTypeConfig conf tp.name).Template = [] →
      generateType env tp conf =
        match typeVariantsLoop env tp
            { lookupTypeConfig conf tp.name with Template := [("default", [])] } conf
            [("default", [])] "" with
        | .error e => .error e
        | .ok buf => env.formatCode buf) ∧
    (∀ (env : Env) (fp : GqlField) (tp : GqlNamedType) (typeConf : TypeConfig)
        (conf : Config),
      (lookupFieldConfig typeConf fp.name).Template = [] →
      generateField env fp tp typeConf conf =
        fieldVariantsLoop env fp tp conf [("default", [])] "" "" []) := by
  refine ⟨rfl, ?_, ?_⟩
  · intro env tp conf h
    rw [generateType]
    rw [h]
    rfl
  · intro env fp tp typeConf conf h
    rw [generateField, h]
    rfl

/-- Claim C8 witness: the entity-level normalization at a concrete entity
with no configured variants. -/
theorem default_variant_normalization_witness :
    (lookupTypeConfig confEmpty tObj.name).Template = [] ∧
    generateType envConstExec tObj confEmpty =
      match typeVariantsLoop envConstExec tObj
          { lookupTypeConfig confEmpty tObj.name with Template := [("default", [])] }
          confEmpty [("default", [])] "" with
      | .error e => .error e
      | .ok buf => envConstExec.formatCode buf :=
  ⟨rfl, default_variant_normalization.2.1 envConstExec tObj confEmpty rfl⟩

theorem processTypes_append (env : Env) (conf : Config) (l1 l2 : List GqlNamedType) :
    ∀ acc, processTypes env conf (l1 ++ l2) acc =
      match processTypes env conf l1 acc with
      | .error e => .error e
      | .ok acc1 => processTypes env conf l2 acc1 := by
  induction l1 with
  | nil => intro acc; rfl
  | cons t rest ih =>
    intro acc
    rw [List.cons_append, processTypes, processTypes]
    by_cases h1 : startsWithUnderscore t.name = true
    · simp only [h1, if_true]
      exact ih acc
    · simp only [h1, if_false, Bool.false_eq_true]
      by_cases h2 : (lookupInternalDefault t.name).ignore = true
      · simp only [h2, if_true]
        exact ih acc
      · simp only [h2, if_false, Bool.false_eq_true]
        by_cases h3 : t.kind = "ENUM" ∨ t.kind = "INPUT_OBJECT" ∨ t.kind = "UNION"
        · simp only [if_pos h3]
          exact ih _
        · simp only [if_neg h3]
          cases generateType env t conf with
          | error e => rfl
          | ok code => exact ih _

/-- Claim C4: the run is fail-fast: if any non-skipped entity's rendering
fails — in particular on an unknown template variant — the driver returns
that error and no mapping at all, even when earlier entities had already
been processed successfully into a partial accumulator. -/
theorem generate_fail_fast_no_partial_mapping (env : Env) (s : String) (conf : Config)
    (ts1 ts2 : List GqlNamedType) (t : GqlNamedType) (acc : List (String × String))
    (e : GoError)
    (hparse : env.parseSchema s = .ok (ts1 ++ t :: ts2))
    (hpre : processTypes env conf ts1 [] = .ok acc)
    (h1 : startsWithUnderscore t.name = false)
    (h2 : (lookupInternalDefault t.name).ignore = false)
    (h3 : ¬(t.kind = "ENUM" ∨ t.kind = "INPUT_OBJECT" ∨ t.kind = "UNION"))
    (hfail : generateType env t conf = .error e) :
    Generate env s conf = .error e := by
  simp only [Generate, hparse]
  rw [processTypes_append env conf ts1 (t :: ts2) [], hpre]
  show processTypes env conf (t :: ts2) acc = Except.error e
  rw [processTypes, h1, h2]
  simp only [Bool.false_eq_true, if_false, if_neg h3, hfail]

/-- Claim C4 witness: entity A renders successfully, entity B requests the
unknown variant "missing"; the run surfaces only the error, and the
artifact already accumulated for A is discarded. -/
theorem generate_fail_fast_no_partial_mapping_witness :
    envFailFast.parseSchema "sch" = .ok ([aObj] ++ bObj :: []) ∧
    processTypes envFailFast confMissingB [aObj] [] = .ok [("a_gen.go", "default:tbody;")] ∧
    generateType envFailFast bObj confMissingB = .error "unknown type template: missing" ∧
    Generate envFailFast "sch" confMissingB = .error "unknown type template: missing" :=
  ⟨rfl, rfl, rfl,
    generate_fail_fast_no_partial_mapping envFailFast "sch" confMissingB
      [aObj] [] bObj [("a_gen.go", "default:tbody;")] "unknown type template: missing"
      rfl rfl rfl rfl (by decide) rfl⟩

/-- Claim C5 amended: the core attaches no context of its own — the error the
caller sees on a template-resolution failure is exactly the collaborator's
error value, which is a function of the variant name alone (the collaborator
is never given the entity or field name). -/
theorem generate_propagates_collaborator_error_unchanged (env : Env) (s : String)
    (conf : Config) (t : GqlNamedType) (v : String) (bag : ParamBag) (e : GoError)
    (hparse : env.parseSchema s = .ok [t])
    (h1 : startsWithUnderscore t.name = false)
    (h2 : (lookupInternalDefault t.name).ignore = false)
    (h3 : ¬(t.kind = "ENUM" ∨ t.kind = "INPUT_OBJECT" ∨ t.kind = "UNION"))
    (hconf : (lookupTypeConfig conf t.name).Template = [(v, bag)])
    (hmiss : env.getTypeTemplate v = .error e) :
    Generate env s conf = .error e := by
  simp only [Generate, hparse]
  rw [processTypes, h1, h2]
  simp only [Bool.false_eq_true, if_false, if_neg h3]
  have hnorm : normalizeTemplates [(v, bag)] = [(v, bag)] := rfl
  have hloop : typeVariantsLoop env t
      { lookupTypeConfig conf t.name with Template := [(v, bag)] } conf
      [(v, bag)] "" = .error e := by
    rw [typeVariantsLoop, hmiss]
  simp only [generateType, hconf, hnorm, hloop]

/-- Claim C5 amended witness: the collaborator's error for the variant
"missing" is surfaced unchanged for the entity Alpha. -/
theorem generate_propagates_collaborator_error_unchanged_witness :
    envTwoSchemas.getTypeTemplate "missing" = .error "unknown template variant: missing" ∧
    Generate envTwoSchemas "A" confMissingBoth = .error "unknown template variant: missing" :=
  ⟨rfl,
    generate_propagates_collaborator_error_unchanged envTwoSchemas "A" confMissingBoth
      alphaObj "missing" [] "unknown template variant: missing"
      rfl rfl rfl (by decide) rfl rfl⟩

/-- Claim C5 counterexample: two runs whose offending entities have different
names (Alpha in one catalogue, Beta in the other) surface the very same
error value, so the surfaced error cannot identify the offending entity. -/
theorem generate_error_lacks_entity_context :
    envTwoSchemas.parseSchema "A" = .ok [alphaObj] ∧
    envTwoSchemas.parseSchema "B" = .ok [betaObj] ∧
    alphaObj.name ≠ betaObj.name ∧
    Generate envTwoSchemas "A" confMissingBoth = .error "unknown template variant: missing" ∧
    Generate envTwoSchemas "B" confMissingBoth = .error "unknown template variant: missing" :=
  ⟨rfl, rfl, by decide, rfl, rfl⟩

/-- Claim C6 counterexample: `confAB` and `confBA` denote the same Go
configuration map, differing only in map iteration order, yet the two runs
produce different artifact text for `t_gen.go` — the variant fragments are
concatenated in iteration order. -/
theorem generate_variant_order_nondeterminism :
    configSameMap confAB confBA ∧
    Generate envTwoVariants "s" confAB = .ok [("t_gen.go", "a:Ba;b:Bb;")] ∧
    Generate envTwoVariants "s" confBA = .ok [("t_gen.go", "b:Bb;a:Ba;")] ∧
    Generate envTwoVariants "s" confAB ≠ Generate envTwoVariants "s" confBA := by
  refine ⟨?_, rfl, rfl, by decide⟩
  intro n
  by_cases h : n = "T"
  · subst h
    exact ⟨List.Perm.swap _ _ _, fun f => List.Perm.refl _⟩
  · have hb : (n == "T") = false := beq_eq_false_iff_ne.mpr h
    have e1 : lookupTypeConfig confAB n = ⟨[], []⟩ := by
      simp [lookupTypeConfig, confAB, List.lookup, hb]
    have e2 : lookupTypeConfig confBA n = ⟨[], []⟩ := by
      simp [lookupTypeConfig, confBA, List.lookup, hb]
    rw [e1, e2]
    exact ⟨List.Perm.refl _, fun f => List.Perm.refl _⟩

theorem perm_length_le_one_eq {α : Type} {l1 l2 : List α}
    (h : l1.Perm l2) (hl : l1.length ≤ 1) : l1 = l2 := by
  cases l1 with
  | nil => exact (List.nil_perm.mp h).symm
  | cons a t =>
    cases t with
    | nil => exact List.singleton_perm.mp h
    | cons b t2 => simp at hl

theorem fieldVariantsLoop_congr (env : Env) (hexec : execRespectsConfigEquiv env)
    {c1 c2 : Config} (hc : configSameMap c1 c2) (fp : GqlField) (tp : GqlNamedType) :
    ∀ (l : List (String × ParamBag)) (fc mc : String) (im : List String),
      fieldVariantsLoop env fp tp c1 l fc mc im =
        fieldVariantsLoop env fp tp c2 l fc mc im := by
  intro l
  induction l with
  | nil => intro fc mc im; rfl
  | cons hd rest ih =>
    intro fc mc im
    obtain ⟨templateName, bag⟩ := hd
    cases h1 : env.getPropertyTemplate templateName with
    | error e => simp only [fieldVariantsLoop, h1]
    | ok propTemplate =>
      cases h2 : env.parseTemplate templateName (trimSpaceTab propTemplate.FieldTemplate) with
      | error e => simp only [fieldVariantsLoop, h1, h2]
      | ok tmpl =>
        cases h3 : getTypeName fp.type with
        | none => simp only [fieldVariantsLoop, h1, h2, h3]
        | some fieldTypeName =>
          cases h4 : env.parseTemplate templateName propTemplate.MethodTemplate with
          | error e => simp only [fieldVariantsLoop, h1, h2, h3, h4]
          | ok tmpl2 =>
            have hex1 : env.executeTemplate tmpl
                (.fieldCtx tp.kind fp.name fp.description fieldTypeName c1 bag) =
                env.executeTemplate tmpl
                (.fieldCtx tp.kind fp.name fp.description fieldTypeName c2 bag) :=
              hexec tmpl _ _ ⟨rfl, rfl, rfl, rfl, hc, rfl⟩
            have hex2 : env.executeTemplate tmpl2
                (.methodCtx tp.kind tp.name fp.name fieldTypeName fp.name c1 bag) =
                env.executeTemplate tmpl2
                (.methodCtx tp.kind tp.name fp.name fieldTypeName fp.name c2 bag) :=
              hexec tmpl2 _ _ ⟨rfl, rfl, rfl, rfl, rfl, hc, rfl⟩
            simp only [fieldVariantsLoop, h1, h2, h3, h4, hex1, hex2]
            exact ih _ _ _

theorem generateField_congr (env : Env) (hexec : execRespectsConfigEquiv env)
    {c1 c2 : Config} (hc : configSameMap c1 c2) (fp : GqlField) (tp : GqlNamedType)
    {tcA tcB : TypeConfig}
    (hft : (lookupFieldConfig tcA fp.name).Template = (lookupFieldConfig tcB fp.name).Template) :
    generateField env fp tp tcA c1 = generateField env fp tp tcB c2 := by
  rw [generateField, generateField, hft]
  exact fieldVariantsLoop_congr env hexec hc fp tp _ _ _ _

theorem fieldsLoop_congr (env : Env) (hexec : execRespectsConfigEquiv env)
    {c1 c2 : Config} (hc : configSameMap c1 c2) (tp : GqlNamedType)
    {tcA tcB : TypeConfig}
    (hft : ∀ f, (lookupFieldConfig tcA f).Template = (lookupFieldConfig tcB f).Template) :
    ∀ fs, fieldsLoop env tp tcA c1 fs = fieldsLoop env tp tcB c2 fs := by
  intro fs
  induction fs with
  | nil => rfl
  | cons fp rest ih =>
    have hgf := generateField_congr env hexec hc fp tp (hft fp.name)
    cases h1 : generateField env fp tp tcB c2 with
    | error e => simp only [fieldsLoop, hgf, h1]
    | ok res =>
      obtain ⟨fc2, mc2, fi2⟩ := res
      cases h2 : fieldsLoop env tp tcB c2 rest with
      | error e => simp only [fieldsLoop, hgf, h1, ih, h2]
      | ok res2 => simp only [fieldsLoop, hgf, h1, ih, h2]

theorem typeVariantsLoop_congr (env : Env) (hexec : execRespectsConfigEquiv env)
    {c1 c2 : Config} (hc : configSameMap c1 c2) (tp : GqlNamedType)
    {tcA tcB : TypeConfig}
    (hft : ∀ f, (lookupFieldConfig tcA f).Template = (lookupFieldConfig tcB f).Template) :
    ∀ (l : List (String × ParamBag)) (buf : String),
      typeVariantsLoop env tp tcA c1 l buf = typeVariantsLoop env tp tcB c2 l buf := by
  intro l
  induction l with
  | nil => intro buf; rfl
  | cons hd rest ih =>
    intro buf
    obtain ⟨templateName, bag⟩ := hd
    have hfl := fieldsLoop_congr env hexec hc tp hft tp.fields
    cases h1 : env.getTypeTemplate templateName with
    | error e => simp only [typeVariantsLoop, h1]
    | ok typeTemplate =>
      cases h2 : env.parseTemplate templateName (trimSpaceTab typeTemplate.TypeTemplate) with
      | error e => simp only [typeVariantsLoop, h1, h2]
      | ok tmpl =>
        cases h3 : fieldsLoop env tp tcB c2 tp.fields with
        | error e => simp only [typeVariantsLoop, h1, h2, hfl, h3]
        | ok res =>
          obtain ⟨fields, methods, imports⟩ := res
          have hex : env.executeTemplate tmpl
              (.typeCtx tp.kind (possibleTypeNames tp) tp.name
                (returnString tp.description) c1 fields methods (removeDuplicates imports)) =
              env.executeTemplate tmpl
              (.typeCtx tp.kind (possibleTypeNames tp) tp.name
                (returnString tp.description) c2 fields methods (removeDuplicates imports)) :=
            hexec tmpl _ _ ⟨rfl, rfl, rfl, rfl, hc, rfl, rfl, rfl⟩
          simp only [typeVariantsLoop, h1, h2, hfl, h3, hex]
          exact ih _

theorem generateType_congr (env : Env) (hexec : execRespectsConfigEquiv env)
    {c1 c2 : Config} (hc : configSameMap c1 c2) (hs : singleVariantConfig c1)
    (tp : GqlNamedType) :
    generateType env tp c1 = generateType env tp c2 := by
  have htmpl : (lookupTypeConfig c1 tp.name).Template = (lookupTypeConfig c2 tp.name).Template :=
    perm_length_le_one_eq (hc tp.name).1 (hs tp.name).1
  have hft : ∀ f, (lookupFieldConfig (lookupTypeConfig c1 tp.name) f).Template =
      (lookupFieldConfig (lookupTypeConfig c2 tp.name) f).Template :=
    fun f => perm_length_le_one_eq ((hc tp.name).2 f) ((hs tp.name).2 f)
  have hft2 : ∀ f, (lookupFieldConfig
      { lookupTypeConfig c1 tp.name with
        Template := normalizeTemplates (lookupTypeConfig c2 tp.name).Template } f).Template =
      (lookupFieldConfig
      { lookupTypeConfig c2 tp.name with
        Template := normalizeTemplates (lookupTypeConfig c2 tp.name).Template } f).Template :=
    hft
  have hloop := @typeVariantsLoop_congr env hexec c1 c2 hc tp
    { lookupTypeConfig c1 tp.name with
      Template := normalizeTemplates (lookupTypeConfig c2 tp.name).Template }
    { lookupTypeConfig c2 tp.name with
      Template := normalizeTemplates (lookupTypeConfig c2 tp.name).Template }
    hft2 (normalizeTemplates (lookupTypeConfig c2 tp.name).Template) ""
  simp only [generateType, htmpl]
  rw [hloop]

theorem processTypes_congr (env : Env) (hexec : execRespectsConfigEquiv env)
    {c1 c2 : Config} (hc : configSameMap c1 c2) (hs : singleVariantConfig c1) :
    ∀ (ts : List GqlNamedType) (acc : List (String × String)),
      processTypes env c1 ts acc = processTypes env c2 ts acc := by
  intro ts
  induction ts with
  | nil => intro acc; rfl
  | cons t rest ih =>
    intro acc
    rw [processTypes, processTypes]
    by_cases h1 : startsWithUnderscore t.name = true
    · simp only [h1, if_true]
      exact ih acc
    · simp only [h1, if_false, Bool.false_eq_true]
      by_cases h2 : (lookupInternalDefault t.name).ignore = true
      · simp only [h2, if_true]
        exact ih acc
      · simp only [h2, if_false, Bool.false_eq_true]
        by_cases h3 : t.kind = "ENUM" ∨ t.kind = "INPUT_OBJECT" ∨ t.kind = "UNION"
        · simp only [if_pos h3]
          exact ih _
        · simp only [if_neg h3]
          rw [generateType_congr env hexec hc hs t]
          cases generateType env t c2 with
          | error e => rfl
          | ok code => exact ih _

/-- Claim C6 amended: the run is a deterministic function of the schema text,
the configuration map and the variant iteration orders; when every template
map holds at most one variant (the default-normalized case) and the template
engine does not observe the configuration's iteration order, two runs over
the same configuration map produce byte-identical artifacts even if the
model carries the map in different orders.  With two or more variants the
concatenation order follows map iteration order and the artifact text can
differ between runs (see the counterexample). -/
theorem generate_deterministic_single_variant (env : Env) (s : String) (c1 c2 : Config)
    (hc : configSameMap c1 c2) (hs : singleVariantConfig c1)
    (hexec : execRespectsConfigEquiv env) :
    Generate env s c1 = Generate env s c2 := by
  rw [Generate, Generate]
  cases env.parseSchema s with
  | error e => rfl
  | ok types => exact processTypes_congr env hexec hc hs types []

/-- Claim C6 amended witness: the empty configuration and a configuration
holding one explicit zero-value entry denote the same map; with a
context-blind template engine the two runs coincide. -/
theorem generate_deterministic_single_variant_witness :
    configSameMap confEmpty confZeroEntry ∧ singleVariantConfig confEmpty ∧
    execRespectsConfigEquiv envConstExec ∧
    Generate envConstExec "s" confEmpty = Generate envConstExec "s" confZeroEntry := by
  have hc : configSameMap confEmpty confZeroEntry := by
    intro n
    by_cases h : n = "Z"
    · subst h
      exact ⟨List.Perm.refl _, fun f => List.Perm.refl _⟩
    · have hb : (n == "Z") = false := beq_eq_false_iff_ne.mpr h
      have e2 : lookupTypeConfig confZeroEntry n = ⟨[], []⟩ := by
        simp [lookupTypeConfig, confZeroEntry, List.lookup, hb]
      rw [e2]
      exact ⟨List.Perm.refl _, fun f => List.Perm.refl _⟩
  have hs : singleVariantConfig confEmpty :=
    fun n => ⟨Nat.zero_le 1, fun f => Nat.zero_le 1⟩
  have hexec : execRespectsConfigEquiv envConstExec := fun t a b h => rfl
  exact ⟨hc, hs, hexec,
    generate_deterministic_single_variant envConstExec "s" confEmpty confZeroEntry hc hs hexec⟩

end GraphqlCodegen
